import Mathlib

/-!
Verification of the slot-synchronous NR MAC layer of `srsenb`
(`src/srsenb/src/stack/mac/nr/mac_nr.cc`).

The downlink assembler (`get_dl_config`), the slot entry point
(`slot_indication`), the uplink receive path (`rx_data_indication`,
`process_pdus`, `handle_pdu`) and the cell configuration
(`cell_cfg`) are embedded as pure functions over explicit state.
External collaborators (RRC, RLC, PHY) are modelled as oracles
passed in as function arguments; the values returned to them
(transmission requests, RLC read requests, delivered sub-PDUs) are
returned as data so that theorems can speak about them.

Byte buffers are `List Nat` (each element one byte).  A transport
block descriptor records, besides the byte contents, which buffer
its data pointer references (`Src`), which is the shallow embedding
of the pointer stored in `tx_request.pdus[i].data[0]`.
-/

namespace SrsenbMacNr

/-- Return code `SRSRAN_SUCCESS` (0). -/
def SRSRAN_SUCCESS : Int := 0

/-- Return code `SRSRAN_ERROR` (-1). -/
def SRSRAN_ERROR : Int := -1

/-- Number of transmission pool buffers.  `mac_nr::init` allocates
`SRSRAN_FDD_NOF_HARQ` buffers, 8 per the comment at mac_nr.cc:58. -/
def SRSRAN_FDD_NOF_HARQ : Nat := 8

/-! ### MAC PDU codec

Modelled from the spec: the codec `srsran::mac_sch_pdu_nr` used at
mac_nr.cc:140/153-154 (pack) and mac_nr.cc:232-243 (unpack) is not
part of the sources under verification; its wire format follows the
spec's description: each sub-PDU is a sub-header (channel id plus a
one- or two-byte length field selected by a flag bit) followed by the
payload bytes; a sub-header whose channel id is the reserved padding
id has no length field, consumes the remainder of the buffer and
terminates parsing; a zero-length input is a valid empty PDU; a
declared length running past the end of the buffer is a parse
failure. -/

/-- Modelled from the spec: the reserved padding logical-channel id
(the sub-header carrying it has no length field and consumes the
remainder of the buffer). -/
def PAD_LCID : Nat := 63

/-- Modelled from the spec: serialize one sub-header.  The channel id
occupies the low 6 bits of the first byte; the flag bit (value 64)
selects a two-byte big-endian length field for SDUs of 256 bytes or
more, otherwise a single length byte follows. -/
def subHeader (lcid : Nat) (len : Nat) : List Nat :=
  if len < 256 then [lcid, len] else [64 + lcid, len / 256, len % 256]

/-- Modelled from the spec: serialize a list of
(logical-channel id, SDU bytes) pairs into the flat transport-block
form (`mac_sch_pdu_nr::pack` after a sequence of `add_sdu` calls). -/
def serializeSubPdus : List (Nat × List Nat) → List Nat
  | [] => []
  | (lcid, sdu) :: rest => subHeader lcid sdu.length ++ sdu ++ serializeSubPdus rest

/-- Modelled from the spec: the parsing loop of
`mac_sch_pdu_nr::unpack`, written with explicit fuel (one unit per
sub-PDU) so that it is structurally recursive.  `none` is the
`MalformedPdu` outcome. -/
def unpackFuel : Nat → List Nat → Option (List (Nat × List Nat))
  | _, [] => some []
  | 0, _ :: _ => none
  | Nat.succ fuel, b :: rest =>
    if b % 64 = PAD_LCID then
      some [(b % 64, rest)]
    else if b / 64 % 2 = 0 then
      match rest with
      | [] => none
      | len :: r2 =>
        if len ≤ r2.length then
          match unpackFuel fuel (r2.drop len) with
          | some subs => some ((b % 64, r2.take len) :: subs)
          | none => none
        else none
    else
      match rest with
      | hi :: lo :: r2 =>
        if hi * 256 + lo ≤ r2.length then
          match unpackFuel fuel (r2.drop (hi * 256 + lo)) with
          | some subs => some ((b % 64, r2.take (hi * 256 + lo)) :: subs)
          | none => none
        else none
      | _ => none

/-- Modelled from the spec: `mac_sch_pdu_nr::unpack` on a whole
received buffer.  Each sub-PDU consumes at least one byte, so the
buffer length is enough fuel. -/
def unpackLoop (l : List Nat) : Option (List (Nat × List Nat)) :=
  unpackFuel l.length l

/-! ### Downlink transmission request -/

/-- Which buffer a transport-block descriptor's data pointer
references: the BCH payload buffer (`bcch_bch_payload`), a cached SIB
payload (`bcch_dlsch_payload[...]`), or a pool transmission buffer
(`ue_tx_buffer[j]`). -/
inductive Src : Type where
  | bch : Src
  | sib (i : Nat) : Src
  | ue (j : Nat) : Src
deriving Repr, DecidableEq

/-- One entry of `tx_request.pdus` as filled by `get_dl_config`:
`pbch.mib_present`, the data pointer (as a `Src` tag plus the
referenced bytes), `length` and `index`.  Fields left untouched by
the code keep their zero initialization (`mib_present = false`). -/
structure TxPdu where
  mib_present : Bool
  src : Src
  data : List Nat
  length : Nat
  index : Nat
deriving Repr, DecidableEq

/-- `phy_interface_stack_nr::tx_request_t`: the slot index and the
ordered descriptor list (`nof_pdus` is the list length). -/
structure TxRequest where
  tti : Nat
  pdus : List TxPdu
deriving Repr, DecidableEq

/-- The zero-initialized `tx_request_t` built at mac_nr.cc:184. -/
def emptyTxRequest : TxRequest := { tti := 0, pdus := [] }

/-- Append one descriptor: `tx_request.pdus[tx_request.nof_pdus] = ...;
tx_request.nof_pdus++` with `index = nof_pdus` at append time. -/
def appendPdu (req : TxRequest) (mib : Bool) (src : Src) (data : List Nat) : TxRequest :=
  { req with
    pdus := req.pdus ++
      [{ mib_present := mib, src := src, data := data, length := data.length,
         index := req.pdus.length }] }

/-- Projection of a descriptor to (referenced buffer, bytes); used to
state which payloads a request carries. -/
def descOf (p : TxPdu) : Src × List Nat := (p.src, p.data)

/-! ### MAC state and collaborators -/

/-- One cached SIB entry (`mac_nr::sib_info_t`): index, periodicity
in radio frames, cached payload bytes. -/
structure SibInfo where
  index : Nat
  periodicity : Nat
  payload : List Nat
deriving Repr, DecidableEq

/-- The `mac_nr` state relevant to the verified paths: the `started`
flag, the cached SIB list `bcch_dlsch_payload`, `args.tb_size`,
`args.rnti`, and the uplink PDU queue contents. -/
structure MacState where
  started : Bool
  bcch_dlsch_payload : List SibInfo
  tb_size : Nat
  rnti : Nat
  ue_rx_pdu_queue : List (List Nat)
deriving Repr, DecidableEq

/-- The upper/lower-layer oracles consulted by `get_dl_config`:
`rrc_h->read_pdu_bcch_bch` (success with the read bytes, or failure)
and `rlc_h->read_pdu` (the returned `pdu_len` together with the bytes
written into `ue_rlc_buffer->msg`). -/
structure GetDlEnv where
  readBcchBch : Nat → Option (List Nat)
  rlcRead : Nat → Nat → Nat → Int × List Nat

/-- A record of the single `rlc_h->read_pdu(rnti, lcid, msg, max)`
call made in the padding branch, plus the pool buffer index the
packed PDU is written into. -/
structure RlcCall where
  rnti : Nat
  lcid : Nat
  maxBytes : Nat
  bufIdx : Nat
deriving Repr, DecidableEq

/-! ### get_dl_config (mac_nr.cc:93-179) -/

/-- Step 1 of `get_dl_config` (mac_nr.cc:97-114): every 80 slots try
to read the BCH payload from RRC; on success append a descriptor with
`mib_present = true` referencing the freshly read bytes; on failure
only log. -/
def mibPass (env : GetDlEnv) (tti : Nat) (req : TxRequest) : TxRequest :=
  if tti % 80 = 0 then
    match env.readBcchBch tti with
    | some payload => appendPdu req true Src.bch payload
    | none => req
  else req

/-- Whether a cached SIB entry is appended at slot `tti`
(mac_nr.cc:118-119): non-empty payload and `tti % (periodicity * 10) = 0`. -/
def sibDue (tti : Nat) (s : SibInfo) : Bool :=
  decide (0 < s.payload.length) && decide (tti % (s.periodicity * 10) = 0)

/-- One iteration of the SIB loop (mac_nr.cc:117-133). -/
def sibStep (tti : Nat) (req : TxRequest) (s : SibInfo) : TxRequest :=
  if 0 < s.payload.length then
    if tti % (s.periodicity * 10) = 0 then
      appendPdu req false (Src.sib s.index) s.payload
    else req
  else req

/-- Step 2 of `get_dl_config`: the SIB scheduling loop over
`bcch_dlsch_payload` in list order. -/
def sibPass (tti : Nat) (req : TxRequest) (sibs : List SibInfo) : TxRequest :=
  sibs.foldl (sibStep tti) req

/-- Step 3 of `get_dl_config` (mac_nr.cc:136-175): if the request is
still empty, pick the pool buffer `tti % SRSRAN_FDD_NOF_HARQ`, read
up to `tb_size - 2` bytes from RLC for `(args.rnti, lcid 4)`; if the
returned count is positive, pack the bytes as a single-SDU MAC PDU
into that buffer and append one descriptor referencing it. -/
def uePass (env : GetDlEnv) (st : MacState) (tti : Nat) (req : TxRequest) :
    TxRequest × Option RlcCall :=
  if req.pdus.length = 0 then
    let bufIdx := tti % SRSRAN_FDD_NOF_HARQ
    let res := env.rlcRead st.rnti 4 (st.tb_size - 2)
    let call : RlcCall := ⟨st.rnti, 4, st.tb_size - 2, bufIdx⟩
    if 0 < res.1 then
      let sdu := res.2.take res.1.toNat
      (appendPdu req false (Src.ue bufIdx) (serializeSubPdus [(4, sdu)]), some call)
    else (req, some call)
  else (req, none)

/-- Result of `get_dl_config`: the filled `tx_request`, the RLC read
request made (if any), and the `config_request.tti` stamp. -/
structure DlConfigResult where
  tx : TxRequest
  rlcCall : Option RlcCall
  cfgTti : Nat

/-- `mac_nr::get_dl_config` (mac_nr.cc:93-179): MIB pass, then SIB
pass, then unicast/padding fallback, then stamping both requests
with the slot index. -/
def get_dl_config (env : GetDlEnv) (st : MacState) (tti : Nat) : DlConfigResult :=
  let r1 := mibPass env tti emptyTxRequest
  let r2 := sibPass tti r1 st.bcch_dlsch_payload
  let r3 := uePass env st tti r2
  { tx := { r3.1 with tti := tti }, rlcCall := r3.2, cfgTti := tti }

/-! ### Slot entry point (mac_nr.cc:181-198) -/

/-- What `mac_nr::slot_indication` hands to the PHY plus its return
code. -/
structure SlotOutcome where
  status : Int
  txSent : TxRequest
  cfgTtiSent : Nat

/-- `mac_nr::slot_indication` (mac_nr.cc:181-198): zero-initialize
both request structures, fill them via `get_dl_config`, forward both
to the PHY, return `SRSRAN_SUCCESS`.  Note that the function does not
consult the `started` flag. -/
def slot_indication (env : GetDlEnv) (st : MacState) (slotIdx : Nat) : SlotOutcome :=
  let r := get_dl_config env st slotIdx
  { status := SRSRAN_SUCCESS, txSent := r.tx, cfgTtiSent := r.cfgTti }

/-! ### Uplink path (mac_nr.cc:200-248) -/

/-- `stack_interface_phy_nr::rx_data_ind_t`: the received transport
block (null pointer modelled as `none`), the rnti and the slot. -/
structure RxDataInd where
  tb : Option (List Nat)
  rnti : Nat
  tti : Nat
deriving Repr, DecidableEq

/-- `mac_nr::rx_data_indication` (mac_nr.cc:200-214): if the
transport block is non-null push it onto `ue_rx_pdu_queue`, notify
the stack, return `SRSRAN_SUCCESS`.  Note that the function does not
consult the `started` flag. -/
def rx_data_indication (st : MacState) (rx : RxDataInd) : MacState × Int :=
  match rx.tb with
  | some tb => ({ st with ue_rx_pdu_queue := st.ue_rx_pdu_queue ++ [tb] }, SRSRAN_SUCCESS)
  | none => (st, SRSRAN_SUCCESS)

/-- Result of `mac_nr::handle_pdu` on one buffer: the return code,
the sub-PDUs iterated over in the logging loop, and the sub-PDUs
actually delivered to RLC.  The delivery call
`rlc_h->write_pdu(args.rnti, subpdu.get_lcid(), ...)` at mac_nr.cc:245
is commented out in the source, so `delivered` is always empty. -/
structure HandleResult where
  status : Int
  subpdusHandled : List (Nat × List Nat)
  delivered : List (Nat × Nat × List Nat)
deriving Repr, DecidableEq

/-- `mac_nr::handle_pdu` (mac_nr.cc:228-248): unpack the buffer; on
failure return `SRSRAN_ERROR` having processed nothing; on success
iterate over the sub-PDUs (logging only — the RLC forwarding line is
commented out) and return `SRSRAN_SUCCESS`. -/
def handle_pdu (st : MacState) (pdu : List Nat) : HandleResult :=
  match unpackLoop pdu with
  | none => { status := SRSRAN_ERROR, subpdusHandled := [], delivered := [] }
  | some subs => { status := SRSRAN_SUCCESS, subpdusHandled := subs, delivered := [] }

/-- The successive `handle_pdu` results produced while draining a
queue front-to-back. -/
def drain (st : MacState) : List (List Nat) → List HandleResult
  | [] => []
  | pdu :: rest => handle_pdu st pdu :: drain st rest

/-- `mac_nr::process_pdus` (mac_nr.cc:219-226): while `started` and
the queue is non-empty, pop the front buffer and hand it to
`handle_pdu` (whose return value is ignored).  `handle_pdu` mutates
neither `started` nor the queue, so the loop drains the whole queue
when started and does nothing otherwise. -/
def process_pdus (st : MacState) : MacState × List HandleResult :=
  if st.started then
    ({ st with ue_rx_pdu_queue := [] }, drain st st.ue_rx_pdu_queue)
  else (st, [])

/-! ### Cell configuration (mac_nr.cc:250-271) -/

/-- One entry of the `cell_cfg->sibs` array: its `len` and
`period_rf` fields (the only ones read). -/
structure SibCfgEntry where
  len : Nat
  period_rf : Nat
deriving Repr, DecidableEq

instance : Inhabited SibCfgEntry := ⟨⟨0, 0⟩⟩

/-- `sched_interface::cell_cfg_t` restricted to the field the code
reads: the SIB descriptor array. -/
structure CellCfg where
  sibs : List SibCfgEntry
deriving Repr, DecidableEq

/-- `mac_nr::cell_cfg` (mac_nr.cc:250-271).  The loop runs `maxSibs`
(`sched_interface::MAX_SIBS`, a constant from a header outside the
verified sources, kept as a parameter) times; every iteration tests
`cell_cfg->sibs->len`, i.e. the length field of the FIRST descriptor
only, and on success caches an entry with index `i`, the first
descriptor's `period_rf`, and the payload read from RRC (an empty
buffer when the RRC read fails, which is logged but still cached).
Returns `SRSRAN_SUCCESS` unconditionally.  The RRC SIB source is the
oracle `rrcSib`. -/
def cell_cfg (rrcSib : Nat → Option (List Nat)) (maxSibs : Nat)
    (st : MacState) (cfg : CellCfg) : MacState × Int :=
  let first := cfg.sibs.headD default
  let newSibs : List SibInfo :=
    if 0 < first.len then
      (List.range maxSibs).map fun i =>
        { index := i, periodicity := first.period_rf, payload := (rrcSib i).getD [] }
    else []
  ({ st with bcch_dlsch_payload := st.bcch_dlsch_payload ++ newSibs }, SRSRAN_SUCCESS)

/-! ### Uplink handoff queue

Modelled from the spec: the queue `ue_rx_pdu_queue`
(`srsran::block_queue`, not part of the verified sources) is a FIFO
with non-blocking `push` and blocking `wait_pop`.  Concurrency is
modelled by linearization: an execution is an arbitrary interleaving
(trace) of push and pop events applied to the queue state, a pop
firing only when the queue is non-empty (`wait_pop` blocks on an
empty queue, so in any completed execution every pop observes a
non-empty queue). -/

/-- A linearized queue event: a producer push of one buffer, or a
consumer pop. -/
inductive QEvent (α : Type) : Type where
  | push (b : α) : QEvent α
  | pop : QEvent α
deriving Repr, DecidableEq

/-- The buffers pushed by a trace, in order. -/
def pushesOf {α : Type} : List (QEvent α) → List α
  | [] => []
  | QEvent.push b :: rest => b :: pushesOf rest
  | QEvent.pop :: rest => pushesOf rest

/-- Run a trace against a FIFO queue state; returns the final queue
contents and the popped buffers in pop order, or `none` when a pop
event occurs on an empty queue (an interleaving that cannot complete,
since `wait_pop` would still be blocked). -/
def runTrace {α : Type} : List (QEvent α) → List α → Option (List α × List α)
  | [], q => some (q, [])
  | QEvent.push b :: rest, q => runTrace rest (q ++ [b])
  | QEvent.pop :: rest, q =>
    match q with
    | [] => none
    | b :: q2 =>
      match runTrace rest q2 with
      | some (qf, ps) => some (qf, b :: ps)
      | none => none

/-! ### Concrete states and environments used by witnesses -/

/-- A concrete state with `started = false`. -/
def stStopped : MacState :=
  { started := false, bcch_dlsch_payload := [], tb_size := 100, rnti := 70,
    ue_rx_pdu_queue := [] }

/-- A concrete state with `started = true`. -/
def stStarted : MacState := { stStopped with started := true }

/-- A concrete environment whose BCH source always succeeds and whose
RLC source is empty. -/
def envBch : GetDlEnv :=
  { readBcchBch := fun _ => some [1, 2, 3], rlcRead := fun _ _ _ => (0, []) }

/-- A concrete environment whose BCH source always fails and whose
RLC source is empty. -/
def envNone : GetDlEnv :=
  { readBcchBch := fun _ => none, rlcRead := fun _ _ _ => (0, []) }

/-- A concrete environment whose BCH source always fails and whose
RLC source returns one byte. -/
def envRlc : GetDlEnv :=
  { readBcchBch := fun _ => none, rlcRead := fun _ _ _ => (1, [42]) }

/-- A concrete cached SIB entry. -/
def sib1 : SibInfo := { index := 0, periodicity := 2, payload := [5, 6] }

/-- A started state caching `sib1`. -/
def stWithSib : MacState := { stStarted with bcch_dlsch_payload := [sib1] }

/-- A started state whose queue holds a malformed buffer followed by
another buffer. -/
def stMalformedQ : MacState := { stStarted with ue_rx_pdu_queue := [[4], [63]] }

/-- A concrete RRC SIB source. -/
def rrcSib0 : Nat → Option (List Nat) := fun i => some [i]

/-- A concrete first SIB configuration descriptor. -/
def firstCfg : SibCfgEntry := ⟨2, 7⟩

/-- A concrete queue trace: three pushes interleaved with three pops. -/
def trace1 : List (QEvent (List Nat)) :=
  [QEvent.push [1], QEvent.push [2], QEvent.pop, QEvent.push [3],
   QEvent.pop, QEvent.pop]

/-! ### Helper lemmas: the MIB pass -/

lemma mibPass_not_due (env : GetDlEnv) (tti : Nat) (req : TxRequest)
    (h : ¬ tti % 80 = 0) : mibPass env tti req = req := by
  simp [mibPass, h]

lemma mibPass_due_none (env : GetDlEnv) (tti : Nat) (req : TxRequest)
    (h80 : tti % 80 = 0) (hn : env.readBcchBch tti = none) :
    mibPass env tti req = req := by
  simp [mibPass, h80, hn]

lemma mibPass_due_some (env : GetDlEnv) (tti : Nat) (req : TxRequest) (pl : List Nat)
    (h80 : tti % 80 = 0) (hs : env.readBcchBch tti = some pl) :
    mibPass env tti req = appendPdu req true Src.bch pl := by
  simp [mibPass, h80, hs]

/-! ### Helper lemmas: the SIB pass -/

lemma sibPass_decomp (tti : Nat) (sibs : List SibInfo) :
    ∀ req : TxRequest, ∃ l : List TxPdu,
      (sibPass tti req sibs).pdus = req.pdus ++ l ∧
      l.map descOf = (sibs.filter (sibDue tti)).map
        (fun s => (Src.sib s.index, s.payload)) ∧
      ∀ p ∈ l, p.mib_present = false ∧ ∃ i, p.src = Src.sib i := by
  induction sibs with
  | nil =>
    intro req
    exact ⟨[], by simp [sibPass], by simp, by simp⟩
  | cons s rest ih =>
    intro req
    have hstep : sibPass tti req (s :: rest) = sibPass tti (sibStep tti req s) rest := rfl
    by_cases h1 : 0 < s.payload.length
    · by_cases h2 : tti % (s.periodicity * 10) = 0
      · obtain ⟨l, hl, hmap, hall⟩ := ih (appendPdu req false (Src.sib s.index) s.payload)
        have hss : sibStep tti req s = appendPdu req false (Src.sib s.index) s.payload := by
          simp [sibStep, h1, h2]
        have hfil : (s :: rest).filter (sibDue tti) = s :: rest.filter (sibDue tti) := by
          simp [List.filter_cons, sibDue, h1, h2]
        refine ⟨⟨false, Src.sib s.index, s.payload, s.payload.length, req.pdus.length⟩ :: l,
          ?_, ?_, ?_⟩
        · rw [hstep, hss, hl]
          simp [appendPdu]
        · rw [hfil]
          simp only [List.map_cons, hmap, descOf]
        · intro p hp
          rcases List.mem_cons.mp hp with h | h
          · subst h; exact ⟨rfl, ⟨s.index, rfl⟩⟩
          · exact hall p h
      · obtain ⟨l, hl, hmap, hall⟩ := ih req
        have hss : sibStep tti req s = req := by simp [sibStep, h1, h2]
        have hfil : (s :: rest).filter (sibDue tti) = rest.filter (sibDue tti) := by
          simp [List.filter_cons, sibDue, h1, h2]
        exact ⟨l, by rw [hstep, hss]; exact hl, by rw [hfil]; exact hmap, hall⟩
    · obtain ⟨l, hl, hmap, hall⟩ := ih req
      have hss : sibStep tti req s = req := by simp [sibStep, h1]
      have hfil : (s :: rest).filter (sibDue tti) = rest.filter (sibDue tti) := by
        simp [List.filter_cons, sibDue, h1]
      exact ⟨l, by rw [hstep, hss]; exact hl, by rw [hfil]; exact hmap, hall⟩

/-! ### Helper lemmas: the unicast/padding pass -/

lemma uePass_nonempty (env : GetDlEnv) (st : MacState) (tti : Nat) (req : TxRequest)
    (h : req.pdus ≠ []) : uePass env st tti req = (req, none) := by
  have h0 : ¬ req.pdus.length = 0 := by simpa using h
  simp [uePass, h0]

lemma uePass_empty_nonpos (env : GetDlEnv) (st : MacState) (tti : Nat) (req : TxRequest)
    (h : req.pdus = [])
    (hres : (env.rlcRead st.rnti 4 (st.tb_size - 2)).1 ≤ 0) :
    uePass env st tti req =
      (req, some ⟨st.rnti, 4, st.tb_size - 2, tti % SRSRAN_FDD_NOF_HARQ⟩) := by
  have h0 : req.pdus.length = 0 := by simp [h]
  have hneg : ¬ 0 < (env.rlcRead st.rnti 4 (st.tb_size - 2)).1 := not_lt.mpr hres
  simp [uePass, h0, hneg]

lemma uePass_empty_pos (env : GetDlEnv) (st : MacState) (tti : Nat) (req : TxRequest)
    (h : req.pdus = [])
    (hres : 0 < (env.rlcRead st.rnti 4 (st.tb_size - 2)).1) :
    uePass env st tti req =
      (appendPdu req false (Src.ue (tti % SRSRAN_FDD_NOF_HARQ))
        (serializeSubPdus [(4, (env.rlcRead st.rnti 4 (st.tb_size - 2)).2.take
          (env.rlcRead st.rnti 4 (st.tb_size - 2)).1.toNat)]),
       some ⟨st.rnti, 4, st.tb_size - 2, tti % SRSRAN_FDD_NOF_HARQ⟩) := by
  have h0 : req.pdus.length = 0 := by simp [h]
  simp [uePass, h0, hres]

/-! ### Helper lemmas: get_dl_config decomposition -/

lemma gdc_tx_pdus (env : GetDlEnv) (st : MacState) (tti : Nat) :
    (get_dl_config env st tti).tx.pdus =
      (uePass env st tti
        (sibPass tti (mibPass env tti emptyTxRequest) st.bcch_dlsch_payload)).1.pdus := rfl

lemma gdc_rlcCall (env : GetDlEnv) (st : MacState) (tti : Nat) :
    (get_dl_config env st tti).rlcCall =
      (uePass env st tti
        (sibPass tti (mibPass env tti emptyTxRequest) st.bcch_dlsch_payload)).2 := rfl

lemma mibPass_empty_decomp (env : GetDlEnv) (tti : Nat) :
    ∃ a : List TxPdu,
      (mibPass env tti emptyTxRequest).pdus = a ∧
      (∀ p ∈ a, p.src = Src.bch ∧ p.mib_present = true) ∧
      a.length ≤ 1 ∧
      (∀ pl, tti % 80 = 0 → env.readBcchBch tti = some pl →
        a.map descOf = [(Src.bch, pl)]) ∧
      ((¬ tti % 80 = 0) ∨ env.readBcchBch tti = none → a = []) := by
  by_cases h80 : tti % 80 = 0
  · cases hb : env.readBcchBch tti with
    | some pl =>
      refine ⟨[⟨true, Src.bch, pl, pl.length, 0⟩], ?_, ?_, by simp, ?_, ?_⟩
      · rw [mibPass_due_some env tti _ pl h80 hb]
        simp [appendPdu, emptyTxRequest]
      · intro p hp
        rw [List.mem_singleton] at hp
        subst hp
        exact ⟨rfl, rfl⟩
      · intro pl2 _ hb2
        injection hb2 with h2
        subst h2
        simp [descOf]
      · rintro (h | h)
        · exact absurd h80 h
        · simp at h
    | none =>
      refine ⟨[], ?_, by simp, by simp, ?_, fun _ => rfl⟩
      · rw [mibPass_due_none env tti _ h80 hb]; rfl
      · intro pl _ hb2
        simp at hb2
  · refine ⟨[], ?_, by simp, by simp, fun pl h _ => absurd h h80, fun _ => rfl⟩
    rw [mibPass_not_due env tti _ h80]; rfl

lemma gdc_decomp (env : GetDlEnv) (st : MacState) (tti : Nat) :
    ∃ a b c : List TxPdu,
      (get_dl_config env st tti).tx.pdus = a ++ b ++ c ∧
      (∀ p ∈ a, p.src = Src.bch ∧ p.mib_present = true) ∧
      a.length ≤ 1 ∧
      (∀ pl, tti % 80 = 0 → env.readBcchBch tti = some pl →
        a.map descOf = [(Src.bch, pl)]) ∧
      ((¬ tti % 80 = 0) ∨ env.readBcchBch tti = none → a = []) ∧
      b.map descOf = ((st.bcch_dlsch_payload.filter (sibDue tti)).map
        fun s => (Src.sib s.index, s.payload)) ∧
      (∀ p ∈ b, p.mib_present = false ∧ ∃ i, p.src = Src.sib i) ∧
      (∀ p ∈ c, p.mib_present = false ∧ ∃ j, p.src = Src.ue j) ∧
      c.length ≤ 1 ∧
      (c ≠ [] → a = [] ∧ b = []) := by
  obtain ⟨a, ha, haprop, halen, hamap, haempty⟩ := mibPass_empty_decomp env tti
  obtain ⟨b, hb, hbmap, hbprop⟩ :=
    sibPass_decomp tti st.bcch_dlsch_payload (mibPass env tti emptyTxRequest)
  rw [ha] at hb
  by_cases hcase :
      (sibPass tti (mibPass env tti emptyTxRequest) st.bcch_dlsch_payload).pdus = []
  · have hab : a = [] ∧ b = [] := by
      rw [hcase] at hb
      exact ⟨(List.append_eq_nil.mp hb.symm).1, (List.append_eq_nil.mp hb.symm).2⟩
    by_cases hpos : 0 < (env.rlcRead st.rnti 4 (st.tb_size - 2)).1
    · refine ⟨a, b,
        [⟨false, Src.ue (tti % SRSRAN_FDD_NOF_HARQ),
          serializeSubPdus [(4, (env.rlcRead st.rnti 4 (st.tb_size - 2)).2.take
            (env.rlcRead st.rnti 4 (st.tb_size - 2)).1.toNat)],
          (serializeSubPdus [(4, (env.rlcRead st.rnti 4 (st.tb_size - 2)).2.take
            (env.rlcRead st.rnti 4 (st.tb_size - 2)).1.toNat)]).length, 0⟩],
        ?_, haprop, halen, hamap, haempty, hbmap, hbprop, ?_, by simp,
        fun _ => hab⟩
      · rw [gdc_tx_pdus, uePass_empty_pos env st tti _ hcase hpos]
        simp [appendPdu, hcase, hab.1, hab.2]
      · intro p hp
        rw [List.mem_singleton] at hp
        subst hp
        exact ⟨rfl, ⟨tti % SRSRAN_FDD_NOF_HARQ, rfl⟩⟩
    · have hle : (env.rlcRead st.rnti 4 (st.tb_size - 2)).1 ≤ 0 := not_lt.mp hpos
      refine ⟨a, b, [], ?_, haprop, halen, hamap, haempty, hbmap, hbprop,
        by simp, by simp, by simp⟩
      rw [gdc_tx_pdus, uePass_empty_nonpos env st tti _ hcase hle]
      simpa using hb
  · refine ⟨a, b, [], ?_, haprop, halen, hamap, haempty, hbmap, hbprop,
      by simp, by simp, by simp⟩
    rw [gdc_tx_pdus, uePass_nonempty env st tti _ hcase]
    simpa using hb

/-! ### Helper lemmas: codec round-trip -/

lemma length_serializeSubPdus_ge (pairs : List (Nat × List Nat)) :
    pairs.length ≤ (serializeSubPdus pairs).length := by
  induction pairs with
  | nil => simp [serializeSubPdus]
  | cons pr rest ih =>
    have h2 : 2 ≤ (subHeader pr.1 pr.2.length).length := by
      unfold subHeader
      split <;> simp
    have hser : serializeSubPdus (pr :: rest) =
        subHeader pr.1 pr.2.length ++ pr.2 ++ serializeSubPdus rest := by
      cases pr
      rfl
    rw [hser]
    simp only [List.length_append, List.length_cons]
    omega

lemma unpackFuel_serialize (pairs : List (Nat × List Nat))
    (hwf : ∀ pr ∈ pairs, pr.1 < 64 ∧ pr.1 ≠ PAD_LCID ∧ pr.2.length < 65536) :
    ∀ fuel, pairs.length ≤ fuel →
      unpackFuel fuel (serializeSubPdus pairs) = some pairs := by
  induction pairs with
  | nil =>
    intro fuel _
    cases fuel <;> rfl
  | cons pr rest ih =>
    obtain ⟨lcid, sdu⟩ := pr
    obtain ⟨hl64, hlpad, hlen⟩ := hwf (lcid, sdu) (List.mem_cons_self _ _)
    have hwf2 : ∀ pr ∈ rest, pr.1 < 64 ∧ pr.1 ≠ PAD_LCID ∧ pr.2.length < 65536 :=
      fun pr h => hwf pr (List.mem_cons_of_mem _ h)
    intro fuel hfuel
    cases fuel with
    | zero => simp at hfuel
    | succ f =>
      have hrest : unpackFuel f (serializeSubPdus rest) = some rest :=
        ih hwf2 f (by simpa using hfuel)
      have htake : (sdu ++ serializeSubPdus rest).take sdu.length = sdu :=
        List.take_left _ _
      have hdrop : (sdu ++ serializeSubPdus rest).drop sdu.length = serializeSubPdus rest :=
        List.drop_left _ _
      have hle : sdu.length ≤ (sdu ++ serializeSubPdus rest).length := by simp
      by_cases h256 : sdu.length < 256
      · have hser : serializeSubPdus ((lcid, sdu) :: rest) =
            lcid :: sdu.length :: (sdu ++ serializeSubPdus rest) := by
          simp [serializeSubPdus, subHeader, h256]
        have hmod : lcid % 64 = lcid := Nat.mod_eq_of_lt hl64
        have hdiv : lcid / 64 = 0 := Nat.div_eq_of_lt hl64
        rw [hser]
        simp [unpackFuel, hmod, hdiv, hlpad, hle, htake, hdrop, hrest]
      · have hser : serializeSubPdus ((lcid, sdu) :: rest) =
            (64 + lcid) :: sdu.length / 256 :: sdu.length % 256 ::
              (sdu ++ serializeSubPdus rest) := by
          simp [serializeSubPdus, subHeader, h256]
        have hmod : (64 + lcid) % 64 = lcid := by omega
        have hdiv : (64 + lcid) / 64 % 2 = 1 := by omega
        have hdiv0 : lcid / 64 = 0 := Nat.div_eq_of_lt hl64
        have hpad2 : lcid ≠ PAD_LCID := hlpad
        have hrecon : sdu.length / 256 * 256 + sdu.length % 256 = sdu.length := by omega
        rw [hser]
        simp [unpackFuel, hmod, hdiv, hdiv0, hpad2, hrecon, hle, htake, hdrop, hrest]

lemma unpackLoop_serialize (pairs : List (Nat × List Nat))
    (hwf : ∀ pr ∈ pairs, pr.1 < 64 ∧ pr.1 ≠ PAD_LCID ∧ pr.2.length < 65536) :
    unpackLoop (serializeSubPdus pairs) = some pairs :=
  unpackFuel_serialize pairs hwf _ (length_serializeSubPdus_ge pairs)

/-! ### Helper lemmas: handoff queue -/

lemma runTrace_spec {α : Type} :
    ∀ (t : List (QEvent α)) (q qf ps : List α),
      runTrace t q = some (qf, ps) → ps ++ qf = q ++ pushesOf t := by
  intro t
  induction t with
  | nil =>
    intro q qf ps h
    simp [runTrace] at h
    obtain ⟨h1, h2⟩ := h
    subst h1
    subst h2
    simp [pushesOf]
  | cons e rest ih =>
    intro q qf ps h
    cases e with
    | push b =>
      have hrun : runTrace rest (q ++ [b]) = some (qf, ps) := h
      have := ih (q ++ [b]) qf ps hrun
      simpa [pushesOf] using this
    | pop =>
      cases q with
      | nil => simp [runTrace] at h
      | cons x q2 =>
        simp only [runTrace] at h
        cases hrun : runTrace rest q2 with
        | none => rw [hrun] at h; simp at h
        | some pr =>
          obtain ⟨qf2, ps2⟩ := pr
          rw [hrun] at h
          simp at h
          obtain ⟨h1, h2⟩ := h
          subst h1
          rw [← h2]
          have := ih q2 qf2 ps2 hrun
          simp [pushesOf, this]

lemma map_descOf_singleton {a : List TxPdu} {s : Src} {d : List Nat}
    (h : a.map descOf = [(s, d)]) : ∃ p, a = [p] ∧ p.src = s ∧ p.data = d := by
  cases a with
  | nil => simp at h
  | cons p t =>
    simp only [List.map_cons, List.cons.injEq, List.map_eq_nil_iff] at h
    obtain ⟨h1, h2⟩ := h
    subst h2
    refine ⟨p, rfl, ?_, ?_⟩
    · have := congrArg Prod.fst h1
      simpa [descOf] using this
    · have := congrArg Prod.snd h1
      simpa [descOf] using this

/-! ### Claim theorems -/

/-- C1: the claim states that each sub-PDU of a successfully unpacked
transport block is forwarded to the RLC collaborator.  The code does
not do this: the forwarding call `rlc_h->write_pdu(...)` at
mac_nr.cc:245 is commented out (with a TODO at mac_nr.cc:223), so a
buffer that unpacks successfully into one sub-PDU is iterated over
and logged but nothing is delivered upward.  This theorem evaluates
`handle_pdu` at such a buffer: unpacking succeeds with one sub-PDU,
yet the set of delivered (rnti, lcid, sdu) triples is empty. -/
theorem C1_no_forwarding :
    unpackLoop [4, 2, 10, 20] = some [(4, [10, 20])] ∧
    (handle_pdu stStarted [4, 2, 10, 20]).status = SRSRAN_SUCCESS ∧
    (handle_pdu stStarted [4, 2, 10, 20]).subpdusHandled = [(4, [10, 20])] ∧
    (handle_pdu stStarted [4, 2, 10, 20]).delivered = [] := by
  decide

/-- C2 counterexample: the claim states that every per-slot operation
is a no-op (or fails fast) outside `Started`.  At the concrete
stopped state, `rx_data_indication` still pushes the received buffer
onto the queue and returns success, and `slot_indication` still
performs assembly (its transmission request is non-empty) and returns
success: neither consults the `started` flag (mac_nr.cc:181-214). -/
theorem C2_counterexample :
    stStopped.started = false ∧
    (rx_data_indication stStopped ⟨some [9], 70, 0⟩).1.ue_rx_pdu_queue = [[9]] ∧
    (rx_data_indication stStopped ⟨some [9], 70, 0⟩).2 = SRSRAN_SUCCESS ∧
    (slot_indication envBch stStopped 0).txSent.pdus ≠ [] ∧
    (slot_indication envBch stStopped 0).status = SRSRAN_SUCCESS := by
  refine ⟨rfl, rfl, rfl, ?_, rfl⟩
  decide

/-- C2 (amended): only the drain loop `process_pdus` is guarded by
the `Started` state (mac_nr.cc:221): outside `Started` it processes
no PDU and leaves the state unchanged.  The slot entry point and the
uplink-receive entry point do not check the state. -/
theorem C2_amended_drain_noop (st : MacState) (h : st.started = false) :
    process_pdus st = (st, []) := by
  simp [process_pdus, h]

theorem C2_amended_witness :
    stStopped.started = false ∧ process_pdus stStopped = (stStopped, []) :=
  ⟨rfl, C2_amended_drain_noop stStopped rfl⟩

/-- C3: for every slot index, when `tti % 80 = 0` and the broadcast
source succeeds, the assembled request contains a descriptor with
`mib_present = true` referencing the freshly read broadcast payload;
when the source fails no MIB descriptor is appended and the slot
entry point still returns success; when `tti % 80 ≠ 0` no descriptor
has `mib_present = true` (mac_nr.cc:97-114, 181-198). -/
theorem C3_mib_scheduling (env : GetDlEnv) (st : MacState) (tti : Nat) :
    (∀ pl, tti % 80 = 0 → env.readBcchBch tti = some pl →
      ∃ p ∈ (get_dl_config env st tti).tx.pdus,
        p.mib_present = true ∧ p.src = Src.bch ∧ p.data = pl) ∧
    (tti % 80 = 0 → env.readBcchBch tti = none →
      (∀ p ∈ (get_dl_config env st tti).tx.pdus, p.mib_present = false) ∧
      (slot_indication env st tti).status = SRSRAN_SUCCESS) ∧
    (¬ tti % 80 = 0 →
      ∀ p ∈ (get_dl_config env st tti).tx.pdus, p.mib_present = false) := by
  obtain ⟨a, b, c, hsplit, haprop, halen, hamap, haempty, hbmap, hbprop, hcprop, hclen, hcne⟩ :=
    gdc_decomp env st tti
  refine ⟨?_, ?_, ?_⟩
  · intro pl h80 hbch
    obtain ⟨p, hpa, hpsrc, hpdata⟩ := map_descOf_singleton (hamap pl h80 hbch)
    refine ⟨p, ?_, (haprop p (by simp [hpa])).2, hpsrc, hpdata⟩
    rw [hsplit, hpa]
    simp
  · intro h80 hbch
    have ha : a = [] := haempty (Or.inr hbch)
    refine ⟨?_, rfl⟩
    intro p hp
    rw [hsplit, ha] at hp
    simp at hp
    rcases hp with hp | hp
    · exact (hbprop p hp).1
    · exact (hcprop p hp).1
  · intro h80 p hp
    have ha : a = [] := haempty (Or.inl h80)
    rw [hsplit, ha] at hp
    simp at hp
    rcases hp with hp | hp
    · exact (hbprop p hp).1
    · exact (hcprop p hp).1

theorem C3_witness :
    ∃ p ∈ (get_dl_config envBch stStarted 0).tx.pdus,
      p.mib_present = true ∧ p.src = Src.bch ∧ p.data = [1, 2, 3] :=
  (C3_mib_scheduling envBch stStarted 0).1 [1, 2, 3] rfl rfl

/-- C4: for every cached SIB entry with non-empty payload (and
pairwise-distinct SIB indices in the cache), a descriptor referencing
that SIB's cached bytes appears in the request for slot `tti` iff
`tti % (periodicity * 10) = 0`; an entry with empty cached payload
contributes no descriptor at any slot (mac_nr.cc:117-133). -/
theorem C4_sib_scheduling (env : GetDlEnv) (st : MacState) (tti : Nat) (s : SibInfo)
    (hmem : s ∈ st.bcch_dlsch_payload)
    (hdistinct : ∀ s' ∈ st.bcch_dlsch_payload, s'.index = s.index → s' = s) :
    (s.payload ≠ [] →
      ((Src.sib s.index, s.payload) ∈ (get_dl_config env st tti).tx.pdus.map descOf ↔
        tti % (s.periodicity * 10) = 0)) ∧
    (s.payload = [] →
      ∀ d, (Src.sib s.index, d) ∉ (get_dl_config env st tti).tx.pdus.map descOf) := by
  obtain ⟨a, b, c, hsplit, haprop, halen, hamap, haempty, hbmap, hbprop, hcprop, hclen, hcne⟩ :=
    gdc_decomp env st tti
  have hmemb : ∀ d : List Nat,
      (Src.sib s.index, d) ∈ (get_dl_config env st tti).tx.pdus.map descOf ↔
      ∃ x ∈ st.bcch_dlsch_payload.filter (sibDue tti),
        x.index = s.index ∧ x.payload = d := by
    intro d
    rw [hsplit]
    simp only [List.map_append, List.mem_append]
    constructor
    · rintro ((h | h) | h)
      · obtain ⟨p, hp, hpe⟩ := List.mem_map.mp h
        have hsrc := (haprop p hp).1
        simp [descOf, hsrc] at hpe
      · rw [hbmap] at h
        obtain ⟨x, hx, hxe⟩ := List.mem_map.mp h
        have h1 : Src.sib x.index = Src.sib s.index := congrArg Prod.fst hxe
        have h2 : x.payload = d := congrArg Prod.snd hxe
        have h1x : x.index = s.index := by simpa using h1
        exact ⟨x, hx, h1x, h2⟩
      · obtain ⟨p, hp, hpe⟩ := List.mem_map.mp h
        obtain ⟨_, j, hj⟩ := hcprop p hp
        simp [descOf, hj] at hpe
    · rintro ⟨x, hx, h1, h2⟩
      refine Or.inl (Or.inr ?_)
      rw [hbmap]
      exact List.mem_map.mpr ⟨x, hx, by rw [h1, h2]⟩
  constructor
  · intro hne
    rw [hmemb s.payload]
    constructor
    · rintro ⟨x, hx, h1, h2⟩
      have hx2 : x ∈ st.bcch_dlsch_payload := List.mem_of_mem_filter hx
      have hxs : x = s := hdistinct x hx2 h1
      have hdue : sibDue tti x = true := List.of_mem_filter hx
      rw [hxs] at hdue
      simp [sibDue] at hdue
      exact hdue.2
    · intro hmod
      have hdue : sibDue tti s = true := by
        simp [sibDue, hmod]
        exact List.length_pos.mpr hne
      exact ⟨s, List.mem_filter.mpr ⟨hmem, hdue⟩, rfl, rfl⟩
  · intro hpay d
    rw [hmemb d]
    rintro ⟨x, hx, h1, h2⟩
    have hx2 : x ∈ st.bcch_dlsch_payload := List.mem_of_mem_filter hx
    have hxs : x = s := hdistinct x hx2 h1
    have hdue : sibDue tti x = true := List.of_mem_filter hx
    rw [hxs] at hdue
    simp [sibDue, hpay] at hdue

theorem C4_witness :
    (Src.sib 0, [5, 6]) ∈ (get_dl_config envNone stWithSib 20).tx.pdus.map descOf := by
  have hmem : sib1 ∈ stWithSib.bcch_dlsch_payload := by simp [stWithSib]
  have hdist : ∀ s' ∈ stWithSib.bcch_dlsch_payload, s'.index = sib1.index → s' = sib1 := by
    intro s' hs' _
    simpa [stWithSib] using hs'
  have h := (C4_sib_scheduling envNone stWithSib 20 sib1 hmem hdist).1 (by decide)
  exact h.mpr (by decide)

/-- C5: in a slot where the broadcast passes appended nothing, the
assembler issues exactly one RLC read for (args.rnti, lcid 4) capped
at `tb_size - 2` bytes, destined for the pool buffer
`tti % SRSRAN_FDD_NOF_HARQ`; a non-positive returned length yields an
empty request, a positive length yields exactly one descriptor
referencing the packed pool buffer (mac_nr.cc:135-175). -/
theorem C5_unicast_fallback (env : GetDlEnv) (st : MacState) (tti : Nat)
    (h : (sibPass tti (mibPass env tti emptyTxRequest) st.bcch_dlsch_payload).pdus = []) :
    (get_dl_config env st tti).rlcCall =
      some ⟨st.rnti, 4, st.tb_size - 2, tti % SRSRAN_FDD_NOF_HARQ⟩ ∧
    ((env.rlcRead st.rnti 4 (st.tb_size - 2)).1 ≤ 0 →
      (get_dl_config env st tti).tx.pdus = []) ∧
    (0 < (env.rlcRead st.rnti 4 (st.tb_size - 2)).1 →
      ∃ p, (get_dl_config env st tti).tx.pdus = [p] ∧
        p.src = Src.ue (tti % SRSRAN_FDD_NOF_HARQ) ∧
        p.mib_present = false ∧
        p.data = serializeSubPdus [(4, (env.rlcRead st.rnti 4 (st.tb_size - 2)).2.take
          (env.rlcRead st.rnti 4 (st.tb_size - 2)).1.toNat)]) := by
  refine ⟨?_, ?_, ?_⟩
  · by_cases hpos : 0 < (env.rlcRead st.rnti 4 (st.tb_size - 2)).1
    · rw [gdc_rlcCall, uePass_empty_pos env st tti _ h hpos]
    · rw [gdc_rlcCall, uePass_empty_nonpos env st tti _ h (not_lt.mp hpos)]
  · intro hle
    rw [gdc_tx_pdus, uePass_empty_nonpos env st tti _ h hle]
    exact h
  · intro hpos
    rw [gdc_tx_pdus, uePass_empty_pos env st tti _ h hpos]
    refine ⟨⟨false, Src.ue (tti % SRSRAN_FDD_NOF_HARQ),
      serializeSubPdus [(4, (env.rlcRead st.rnti 4 (st.tb_size - 2)).2.take
        (env.rlcRead st.rnti 4 (st.tb_size - 2)).1.toNat)],
      (serializeSubPdus [(4, (env.rlcRead st.rnti 4 (st.tb_size - 2)).2.take
        (env.rlcRead st.rnti 4 (st.tb_size - 2)).1.toNat)]).length, 0⟩,
      ?_, rfl, rfl, rfl⟩
    simp [appendPdu, h]

theorem C5_witness :
    (get_dl_config envNone stStarted 0).rlcCall = some ⟨70, 4, 98, 0⟩ ∧
    (get_dl_config envNone stStarted 0).tx.pdus = [] := by
  have h := C5_unicast_fallback envNone stStarted 0 (by decide)
  exact ⟨h.1, h.2.1 (by decide)⟩

/-- C6: for every slot and cached configuration, the number of
descriptors in the assembled request is bounded by one more than the
number of cached SIB entries — hence it never exceeds the fixed
capacity of the descriptor array whenever that capacity admits the
MIB plus all cached SIBs — and the request decomposes as
broadcast-info descriptors, then system-information descriptors, then
unicast/padding descriptors, in that order (mac_nr.cc:93-179). -/
theorem C6_capacity_order (env : GetDlEnv) (st : MacState) (tti : Nat) (capacity : Nat)
    (hcap : st.bcch_dlsch_payload.length + 1 ≤ capacity) :
    (get_dl_config env st tti).tx.pdus.length ≤ capacity ∧
    ∃ a b c : List TxPdu,
      (get_dl_config env st tti).tx.pdus = a ++ b ++ c ∧
      (∀ p ∈ a, p.src = Src.bch) ∧
      (∀ p ∈ b, ∃ i, p.src = Src.sib i) ∧
      (∀ p ∈ c, ∃ j, p.src = Src.ue j) := by
  obtain ⟨a, b, c, hsplit, haprop, halen, hamap, haempty, hbmap, hbprop, hcprop, hclen, hcne⟩ :=
    gdc_decomp env st tti
  have hblen : b.length ≤ st.bcch_dlsch_payload.length := by
    have h1 : b.length = (st.bcch_dlsch_payload.filter (sibDue tti)).length := by
      have := congrArg List.length hbmap
      simpa using this
    rw [h1]
    exact List.length_filter_le _ _
  have hlen : (get_dl_config env st tti).tx.pdus.length ≤ capacity := by
    rw [hsplit]
    by_cases hc : c = []
    · subst hc
      simp only [List.append_nil, List.length_append]
      omega
    · obtain ⟨ha2, hb2⟩ := hcne hc
      subst ha2
      subst hb2
      simp only [List.nil_append]
      omega
  exact ⟨hlen, a, b, c, hsplit, fun p hp => (haprop p hp).1,
    fun p hp => (hbprop p hp).2, fun p hp => (hcprop p hp).2⟩

theorem C6_witness :
    (get_dl_config envBch stStarted 0).tx.pdus.length ≤ 1 ∧
    ∃ a b c : List TxPdu,
      (get_dl_config envBch stStarted 0).tx.pdus = a ++ b ++ c ∧
      (∀ p ∈ a, p.src = Src.bch) ∧
      (∀ p ∈ b, ∃ i, p.src = Src.sib i) ∧
      (∀ p ∈ c, ∃ j, p.src = Src.ue j) :=
  C6_capacity_order envBch stStarted 0 1 (by decide)

/-- C7: a queued buffer whose bytes fail to unpack is discarded:
`handle_pdu` returns `SRSRAN_ERROR` having iterated over no sub-PDU
and delivered nothing, and the drain loop ignores the error and
continues with the remaining queued buffers (mac_nr.cc:219-235). -/
theorem C7_malformed_discard (st : MacState) (pdu : List Nat) (rest : List (List Nat))
    (hbad : unpackLoop pdu = none) (hstart : st.started = true)
    (hq : st.ue_rx_pdu_queue = pdu :: rest) :
    handle_pdu st pdu = ⟨SRSRAN_ERROR, [], []⟩ ∧
    (process_pdus st).1.ue_rx_pdu_queue = [] ∧
    (process_pdus st).2 = ⟨SRSRAN_ERROR, [], []⟩ :: drain st rest := by
  have h1 : handle_pdu st pdu = ⟨SRSRAN_ERROR, [], []⟩ := by
    simp [handle_pdu, hbad]
  refine ⟨h1, ?_, ?_⟩
  · simp [process_pdus, hstart]
  · simp [process_pdus, hstart, hq, drain, h1]

theorem C7_witness :
    handle_pdu stMalformedQ [4] = ⟨SRSRAN_ERROR, [], []⟩ ∧
    (process_pdus stMalformedQ).1.ue_rx_pdu_queue = [] ∧
    (process_pdus stMalformedQ).2 =
      ⟨SRSRAN_ERROR, [], []⟩ :: drain stMalformedQ [[63]] :=
  C7_malformed_discard stMalformedQ [4] [[63]] (by decide) rfl rfl

/-- C8: pack/unpack round-trip.  For any list of (channel id, bytes)
pairs with representable channel ids and lengths whose serialized
size fits the byte budget, unpacking the packed serialization yields
exactly the original pairs in order; in particular the unicast
fallback PDU built by `get_dl_config` from a positive RLC read
unpacks to the single pair (lcid 4, the read bytes)
(mac_nr.cc:140-154, 232-243). -/
theorem C8_roundtrip :
    (∀ (pairs : List (Nat × List Nat)) (budget : Nat),
      (∀ pr ∈ pairs, pr.1 < 64 ∧ pr.1 ≠ PAD_LCID ∧ pr.2.length < 65536) →
      (serializeSubPdus pairs).length ≤ budget →
      unpackLoop (serializeSubPdus pairs) = some pairs) ∧
    (∀ (env : GetDlEnv) (st : MacState) (tti : Nat),
      (sibPass tti (mibPass env tti emptyTxRequest) st.bcch_dlsch_payload).pdus = [] →
      0 < (env.rlcRead st.rnti 4 (st.tb_size - 2)).1 →
      ((env.rlcRead st.rnti 4 (st.tb_size - 2)).2.take
        (env.rlcRead st.rnti 4 (st.tb_size - 2)).1.toNat).length < 65536 →
      ∃ p, (get_dl_config env st tti).tx.pdus = [p] ∧
        unpackLoop p.data = some [(4, (env.rlcRead st.rnti 4 (st.tb_size - 2)).2.take
          (env.rlcRead st.rnti 4 (st.tb_size - 2)).1.toNat)]) := by
  constructor
  · intro pairs budget hwf _
    exact unpackLoop_serialize pairs hwf
  · intro env st tti hempty hpos hlen
    have hp : (get_dl_config env st tti).tx.pdus =
        [⟨false, Src.ue (tti % SRSRAN_FDD_NOF_HARQ),
          serializeSubPdus [(4, (env.rlcRead st.rnti 4 (st.tb_size - 2)).2.take
            (env.rlcRead st.rnti 4 (st.tb_size - 2)).1.toNat)],
          (serializeSubPdus [(4, (env.rlcRead st.rnti 4 (st.tb_size - 2)).2.take
            (env.rlcRead st.rnti 4 (st.tb_size - 2)).1.toNat)]).length, 0⟩] := by
      rw [gdc_tx_pdus, uePass_empty_pos env st tti _ hempty hpos]
      simp [appendPdu, hempty]
    refine ⟨_, hp, ?_⟩
    refine unpackLoop_serialize _ ?_
    intro pr hpr
    simp only [List.mem_singleton] at hpr
    subst hpr
    exact ⟨by omega, by simp [PAD_LCID], hlen⟩

theorem C8_witness :
    unpackLoop (serializeSubPdus [(1, [7]), (2, [8, 9])]) = some [(1, [7]), (2, [8, 9])] ∧
    ∃ p, (get_dl_config envRlc stStarted 5).tx.pdus = [p] ∧
      unpackLoop p.data = some [(4, [42])] :=
  ⟨C8_roundtrip.1 [(1, [7]), (2, [8, 9])] 10 (by decide) (by decide),
   C8_roundtrip.2 envRlc stStarted 5 (by decide) (by decide) (by decide)⟩

/-- C9: FIFO handoff.  For any completed interleaving (linearized
trace) of producer pushes and consumer pops on the handoff queue that
starts and ends with an empty queue, the consumer pops exactly the
pushed buffers, in push order, with no duplication and no loss. -/
theorem C9_fifo (t : List (QEvent (List Nat))) (ps : List (List Nat))
    (h : runTrace t [] = some ([], ps)) : ps = pushesOf t := by
  have := runTrace_spec t [] [] ps h
  simpa using this

theorem C9_witness : [[1], [2], [3]] = pushesOf trace1 :=
  C9_fifo trace1 [[1], [2], [3]] (by decide)

/-- C10: cell configuration examines only the first supplied SIB
descriptor.  When its length is positive, exactly `maxSibs` entries
are cached, with ascending indices `0 .. maxSibs - 1` and every entry
carrying the first descriptor's periodicity; when its length is zero
nothing is cached regardless of the remaining descriptors; the call
returns `SRSRAN_SUCCESS` in either case (mac_nr.cc:250-271). -/
theorem C10_cell_cfg (rrcSib : Nat → Option (List Nat)) (maxSibs : Nat)
    (st : MacState) (first : SibCfgEntry) (rest : List SibCfgEntry)
    (hempty : st.bcch_dlsch_payload = []) :
    (cell_cfg rrcSib maxSibs st ⟨first :: rest⟩).2 = SRSRAN_SUCCESS ∧
    (∀ rest2 : List SibCfgEntry,
      cell_cfg rrcSib maxSibs st ⟨first :: rest2⟩ =
        cell_cfg rrcSib maxSibs st ⟨first :: rest⟩) ∧
    (0 < first.len →
      (cell_cfg rrcSib maxSibs st ⟨first :: rest⟩).1.bcch_dlsch_payload.length = maxSibs ∧
      (cell_cfg rrcSib maxSibs st ⟨first :: rest⟩).1.bcch_dlsch_payload.map SibInfo.index =
        List.range maxSibs ∧
      ∀ e ∈ (cell_cfg rrcSib maxSibs st ⟨first :: rest⟩).1.bcch_dlsch_payload,
        e.periodicity = first.period_rf) ∧
    (first.len = 0 →
      (cell_cfg rrcSib maxSibs st ⟨first :: rest⟩).1.bcch_dlsch_payload = []) := by
  refine ⟨rfl, fun rest2 => rfl, ?_, ?_⟩
  · intro hlen
    have hcfg : (cell_cfg rrcSib maxSibs st ⟨first :: rest⟩).1.bcch_dlsch_payload =
        (List.range maxSibs).map fun i =>
          ({ index := i, periodicity := first.period_rf,
             payload := (rrcSib i).getD [] } : SibInfo) := by
      simp [cell_cfg, hempty, hlen]
    refine ⟨by rw [hcfg]; simp, by rw [hcfg, List.map_map]; exact List.map_id' _, ?_⟩
    intro e he
    rw [hcfg] at he
    obtain ⟨i, _, hi⟩ := List.mem_map.mp he
    rw [← hi]
  · intro hlen
    have h0 : ¬ 0 < first.len := by omega
    simp [cell_cfg, hempty, h0]

theorem C10_witness :
    (cell_cfg rrcSib0 3 stStopped ⟨[firstCfg]⟩).2 = SRSRAN_SUCCESS ∧
    (∀ rest2 : List SibCfgEntry,
      cell_cfg rrcSib0 3 stStopped ⟨firstCfg :: rest2⟩ =
        cell_cfg rrcSib0 3 stStopped ⟨[firstCfg]⟩) ∧
    (0 < firstCfg.len →
      (cell_cfg rrcSib0 3 stStopped ⟨[firstCfg]⟩).1.bcch_dlsch_payload.length = 3 ∧
      (cell_cfg rrcSib0 3 stStopped ⟨[firstCfg]⟩).1.bcch_dlsch_payload.map SibInfo.index =
        List.range 3 ∧
      ∀ e ∈ (cell_cfg rrcSib0 3 stStopped ⟨[firstCfg]⟩).1.bcch_dlsch_payload,
        e.periodicity = firstCfg.period_rf) ∧
    (firstCfg.len = 0 →
      (cell_cfg rrcSib0 3 stStopped ⟨[firstCfg]⟩).1.bcch_dlsch_payload = []) :=
  C10_cell_cfg rrcSib0 3 stStopped firstCfg [] rfl

end SrsenbMacNr
